import Mathlib

/-!
Verification of the trajectory-metrics and statistical-comparison engine of the
Capstone behavioral-analysis repository (python-analysis).  The Python sources are
shallowly embedded: pandas tables become lists of records, per-trial kinematics
become functions over lists of sampled points, and the scipy statistical
primitives (t-tests, one-way ANOVA F computation, peak finding), which are
external collaborators of the repository, are passed in as function parameters so
that the repository's own branching and data-plumbing logic is what gets proved.
Reaction times, coordinates and timestamps are embedded as rationals (the data
layer); derived kinematic quantities that involve square roots or angles live in
the reals.
-/

set_option autoImplicit false

namespace Capstone

/-- Point of a movement trajectory: `{x, y, t}` with `t` in milliseconds
(`movementPath` entries). -/
structure Pt where
  x : ℚ
  y : ℚ
  t : ℚ
deriving DecidableEq, Repr

/-- The three experimental conditions (`trialType`). -/
inductive TType where
  | preSupra
  | preJnd
  | concurrentSupra
deriving DecidableEq, Repr

/-- The fixed condition list `['PRE_SUPRA', 'PRE_JND', 'CONCURRENT_SUPRA']`. -/
def conditions : List TType := [TType.preSupra, TType.preJnd, TType.concurrentSupra]

/-- Trial record restricted to the fields the statistical engine reads.
`reactionTime = none` embeds a NaN cell. -/
structure Trial where
  participantId : ℕ
  trialType : TType
  reactionTime : Option ℚ
deriving DecidableEq, Repr

/-- Mean of a list of rationals (used for pandas `.mean()` over non-null values;
callers guard against the empty list). -/
def meanQ (l : List ℚ) : ℚ := l.sum / l.length

/-- Mean of a list of reals (`np.mean`). -/
noncomputable def meanR (l : List ℝ) : ℝ := l.sum / l.length

/-- Population variance of a list of reals (`np.var`). -/
noncomputable def varR (l : List ℝ) : ℝ := meanR (l.map (fun x => (x - meanR l) ^ 2))

/-- Successive differences (`np.diff`). -/
def diffs : List ℝ → List ℝ
  | a :: b :: rest => (b - a) :: diffs (b :: rest)
  | _ => []

/-!
## PathKinematics: velocity series

Embedding of `SingleParticipantAnalyzer._calculate_velocities` (also the inline
velocity loop of `backend_api.calculate_advanced_metrics`): for each consecutive
sample pair, `dt = (t[i] - t[i-1]) / 1000`; pairs with `dt <= 0` are skipped,
pairs with `dt > 0` contribute `dist / dt`.  The Python `isinstance(..., dict)`
probes are vacuous here because `Pt` is a well-formed point by construction.
-/

/-- Euclidean distance between consecutive points divided by the time delta in
seconds, as computed in the loop body. -/
noncomputable def pairSpeed (p q : Pt) : ℝ :=
  Real.sqrt (((q.x : ℝ) - (p.x : ℝ)) ^ 2 + ((q.y : ℝ) - (p.y : ℝ)) ^ 2) /
    (((q.t : ℝ) - (p.t : ℝ)) / 1000)

/-- Velocity series of a trajectory (`_calculate_velocities`). -/
noncomputable def calcVelocities : List Pt → List ℝ
  | p :: q :: rest =>
      if (q.t - p.t) / 1000 > 0 then pairSpeed p q :: calcVelocities (q :: rest)
      else calcVelocities (q :: rest)
  | _ => []

/-- Specification-level view of one consecutive pair: `some` velocity when
`dt > 0`, `none` (no contribution) otherwise. -/
noncomputable def pairVel (pq : Pt × Pt) : Option ℝ :=
  if (pq.2.t - pq.1.t) / 1000 > 0 then some (pairSpeed pq.1 pq.2) else none

/-!
## PathKinematics: direction changes (movement corrections)

Embedding of `count_direction_changes` inside
`SubliminalPrimingAnalyzer.analyze_movement_corrections`.  The loop runs over the
interior indices `1 .. len-2`, i.e. over the consecutive pairs of `path[1:]`;
zero-displacement segments are skipped without touching the running
`prev_angle`; the angular difference is wrapped into `[0, π]` and compared
against `π/6`.
-/

/-- Bearing `np.arctan2(dy, dx)` of the segment from `p` to `q`, with values in
`(-π, π]` exactly as numpy returns them. -/
noncomputable def atan2 (dy dx : ℝ) : ℝ := Complex.arg ⟨dx, dy⟩

/-- Bearing of the outgoing segment at a point. -/
noncomputable def segAngle (p q : Pt) : ℝ := atan2 ((q.y : ℝ) - (p.y : ℝ)) ((q.x : ℝ) - (p.x : ℝ))

/-- Zero-displacement test `dx == 0 and dy == 0` (exact, on the rational data). -/
def segZero (p q : Pt) : Prop := q.x - p.x = 0 ∧ q.y - p.y = 0

instance (p q : Pt) : Decidable (segZero p q) := by unfold segZero; infer_instance

/-- Angular difference wrapped to the shorter arc: `d = |b - a|`, replaced by
`2π - d` when `d > π` (the loop's wrap step). -/
noncomputable def wrappedDiff (a b : ℝ) : ℝ :=
  if |b - a| > Real.pi then 2 * Real.pi - |b - a| else |b - a|

/-- List of the bearings the loop actually computes: one per non-degenerate
segment of the traversed pair list, in order. -/
noncomputable def bearings : List Pt → List ℝ
  | p :: q :: rest =>
      if segZero p q then bearings (q :: rest)
      else segAngle p q :: bearings (q :: rest)
  | _ => []

open Classical in
/-- Count of adjacent bearing pairs whose wrapped difference exceeds `π/6`:
the specification-level reading of the correction counter. -/
noncomputable def countChanges : List ℝ → ℕ
  | a :: b :: rest => (if wrappedDiff a b > Real.pi / 6 then 1 else 0) + countChanges (b :: rest)
  | _ => 0

open Classical in
/-- State-passing loop of `count_direction_changes`: `prev` is `prev_angle`,
`changes` the counter, and the list argument is the remaining suffix of
`path[1:]` viewed as consecutive pairs. -/
noncomputable def dirChangesGo (prev : Option ℝ) (changes : ℕ) : List Pt → ℕ
  | p :: q :: rest =>
      if segZero p q then dirChangesGo prev changes (q :: rest)
      else
        match prev with
        | none => dirChangesGo (some (segAngle p q)) changes (q :: rest)
        | some pa =>
            dirChangesGo (some (segAngle p q))
              (if wrappedDiff pa (segAngle p q) > Real.pi / 6 then changes + 1 else changes)
              (q :: rest)
  | _ => changes

/-- Embedding of `count_direction_changes(path)`: `None` for fewer than 3
samples, otherwise the loop's final counter. -/
noncomputable def count_direction_changes (path : List Pt) : Option ℕ :=
  if path.length < 3 then none else some (dirChangesGo none 0 path.tail)

/-!
## Single-participant advanced metrics

Embedding of `SingleParticipantAnalyzer._calculate_advanced_metrics` together
with `_count_peaks` and `_calculate_jerk`.  `scipy.signal.find_peaks` is an
external collaborator and is abstracted as the parameter `findPeaks`.
-/

/-- Peak count `_count_peaks`: 0 for fewer than 3 velocity points, otherwise the
scipy peak finder's answer. -/
def countPeaks (findPeaks : List ℝ → ℕ) (velocities : List ℝ) : ℕ :=
  if velocities.length < 3 then 0 else findPeaks velocities

/-- Acceleration series built by `_calculate_jerk`: for each consecutive sample
triple with both time deltas positive, `(v2 - v1) / dt2`. -/
noncomputable def jerkAccels : List Pt → List ℝ
  | a :: b :: c :: rest =>
      if (b.t - a.t) / 1000 > 0 ∧ (c.t - b.t) / 1000 > 0 then
        (pairSpeed b c - pairSpeed a b) / (((c.t : ℝ) - (b.t : ℝ)) / 1000) ::
          jerkAccels (b :: c :: rest)
      else jerkAccels (b :: c :: rest)
  | _ => []

/-- Jerk metric `_calculate_jerk`: returns `0` (not a missing value) for paths
shorter than 4 samples or when fewer than 2 accelerations survive; otherwise the
mean absolute difference of the acceleration series. -/
noncomputable def calculateJerk (path : List Pt) : ℝ :=
  if path.length < 4 then 0
  else
    if (jerkAccels path).length < 2 then 0
    else meanR ((diffs (jerkAccels path)).map (fun x => |x|))

/-- Derived columns `_calculate_advanced_metrics` writes onto one row. -/
structure TrialMetrics where
  speedVariance : ℝ
  velocityPeaks : ℕ
  jerk : ℝ
  averageSpeed : ℝ

/-- Per-row body of `_calculate_advanced_metrics`: rows whose `movementPath` is
missing, not a list, or shorter than 3 samples are skipped (all derived cells
stay missing, embedded as `none`); otherwise every derived cell is assigned. -/
noncomputable def computeTrialMetrics (findPeaks : List ℝ → ℕ) :
    Option (List Pt) → Option TrialMetrics
  | none => none
  | some path =>
      if path.length < 3 then none
      else
        let velocities := calcVelocities path
        some
          { speedVariance := if velocities.length > 0 then varR velocities else 0
            velocityPeaks := countPeaks findPeaks velocities
            jerk := calculateJerk path
            averageSpeed := if velocities.length > 0 then meanR velocities else 0 }

/-!
## Single-participant paired tests

Embedding of `SingleParticipantAnalyzer.run_paired_tests`.  The scipy tests are
parameters returning a `(t, p)` pair; the embedding records which of the two was
selected.
-/

/-- Which scipy test a comparison invoked. -/
inductive TKind where
  | paired
  | independent
deriving DecidableEq, Repr

/-- Result record built for one condition pair by `run_paired_tests`. -/
structure PairedRes where
  kind : TKind
  tStat : ℚ
  pValue : ℚ
  meanDifference : ℚ
  significant : Bool
  mean1 : ℚ
  mean2 : ℚ
deriving DecidableEq, Repr

/-- Non-null reaction times of one condition (`dropna` on the `reactionTime`
column of the condition slice). -/
def condRTs (trials : List Trial) (c : TType) : List ℚ :=
  trials.filterMap (fun tr => if tr.trialType = c then tr.reactionTime else none)

/-- Comparison body of `run_paired_tests` for one `(cond1, cond2)` pair:
skipped when either side has fewer than 2 observations; a paired t-test exactly
when the two sides have equal length, an independent t-test otherwise. -/
def comparePair (ttestRel ttestInd : List ℚ → List ℚ → ℚ × ℚ)
    (d1 d2 : List ℚ) : Option PairedRes :=
  if d1.length < 2 ∨ d2.length < 2 then none
  else
    let res := if d1.length = d2.length then ttestRel d1 d2 else ttestInd d1 d2
    some
      { kind := if d1.length = d2.length then TKind.paired else TKind.independent
        tStat := res.1
        pValue := res.2
        meanDifference := meanQ d1 - meanQ d2
        significant := decide (res.2 < 5 / 100)
        mean1 := meanQ d1
        mean2 := meanQ d2 }

/-- The three comparisons of `run_paired_tests`, in source order. -/
def pairedComparisons : List (TType × TType) :=
  [(TType.preSupra, TType.preJnd),
   (TType.preSupra, TType.concurrentSupra),
   (TType.preJnd, TType.concurrentSupra)]

/-- Embedding of `run_paired_tests`: the list of result records, one per
comparison that had enough data. -/
def run_paired_tests (ttestRel ttestInd : List ℚ → List ℚ → ℚ × ℚ)
    (trials : List Trial) : List PairedRes :=
  pairedComparisons.filterMap
    (fun cc => comparePair ttestRel ttestInd (condRTs trials cc.1) (condRTs trials cc.2))

/-!
## Group-level main-hypothesis post-hoc comparisons

Embedding of the pairwise block of `SubliminalPrimingAnalyzer.test_main_hypothesis`
(the revision with pairwise tests): after the omnibus `f_oneway`, every pair is
compared with `stats.ttest_ind` — the independent-samples test — and the report
line carries the t-statistic and p-value only.
-/

/-- Report line produced for one post-hoc pair: which test ran and the two
numbers printed. -/
structure PosthocLine where
  kind : TKind
  tStat : ℚ
  pValue : ℚ
deriving DecidableEq, Repr

/-- Embedding of the reaction-time pairwise block of `test_main_hypothesis`:
runs only when all three condition samples are non-empty (the same guard as the
omnibus ANOVA), and each pair uses `stats.ttest_ind`. -/
def mainHypothesisPosthoc (ttestInd : List ℚ → List ℚ → ℚ × ℚ)
    (trials : List Trial) : List PosthocLine :=
  let rtS := condRTs trials TType.preSupra
  let rtJ := condRTs trials TType.preJnd
  let rtC := condRTs trials TType.concurrentSupra
  if rtS.length > 0 ∧ rtJ.length > 0 ∧ rtC.length > 0 then
    [⟨TKind.independent, (ttestInd rtS rtJ).1, (ttestInd rtS rtJ).2⟩,
     ⟨TKind.independent, (ttestInd rtJ rtC).1, (ttestInd rtJ rtC).2⟩,
     ⟨TKind.independent, (ttestInd rtS rtC).1, (ttestInd rtS rtC).2⟩]
  else []

/-!
## TrialMetricsBuilder: `backend_api.calculate_advanced_metrics`

A row of the backend trial table: the source fields read by the function plus
the derived columns it may assign.  Cells the function never touched stay
`none` (NaN in the real frame).
-/

/-- Backend trial-table row. -/
structure Row where
  participantId : ℕ
  trialType : TType
  reactionTime : Option ℚ
  movementPath : Option (List Pt)
  averageSpeed : Option ℝ
  speedVariance : Option ℝ
  velocityPeaks : Option ℕ
  jerk : Option ℝ
  trialTypeMeanRT : Option ℚ

/-- Source-field projection of a row (everything the data source supplied). -/
def rowSource (r : Row) : ℕ × TType × Option ℚ × Option (List Pt) :=
  (r.participantId, r.trialType, r.reactionTime, r.movementPath)

/-- Per-row loop body of `calculate_advanced_metrics`: invalid or short paths
leave the row untouched; otherwise `averageSpeed` and `speedVariance` are
assigned whenever at least one velocity exists, `velocityPeaks` when more than
2, and `jerk` when more than 3 velocities (with the inner
`len(accelerations) > 1` re-check). -/
noncomputable def metricsStep (findPeaks : List ℝ → ℕ) (r : Row) : Row :=
  match r.movementPath with
  | none => r
  | some path =>
      if path.length < 3 then r
      else
        let velocities := calcVelocities path
        if velocities.length > 0 then
          { r with
            averageSpeed := some (meanR velocities)
            speedVariance := some (varR velocities)
            velocityPeaks :=
              if velocities.length > 2 then some (findPeaks velocities) else r.velocityPeaks
            jerk :=
              if velocities.length > 3 then
                if (diffs velocities).length > 1 then
                  some (meanR ((diffs (diffs velocities)).map (fun x => |x|)))
                else r.jerk
              else r.jerk }
        else r

/-- Mean reaction time of one `trialType` group over the whole frame, skipping
nulls (`groupby('trialType')['reactionTime'].transform('mean')`); `none` when
the group has no non-null value. -/
def condMeanRT (rows : List Row) (c : TType) : Option ℚ :=
  let vals := (rows.filter (fun r => r.trialType = c)).filterMap (fun r => r.reactionTime)
  if vals.length = 0 then none else some (meanQ vals)

/-- Broadcast of the per-condition mean back onto every row (the column
assignment at the end of the function). -/
def setCondMeans (rows : List Row) : List Row :=
  rows.map (fun r => { r with trialTypeMeanRT := condMeanRT rows r.trialType })

/-- Embedding of `calculate_advanced_metrics`: the per-row metrics pass followed
by the `trialType_mean_RT` column. -/
noncomputable def calculate_advanced_metrics (findPeaks : List ℝ → ℕ)
    (rows : List Row) : List Row :=
  setCondMeans (rows.map (metricsStep findPeaks))

/-!
## HypothesisTester: `backend_api.get_hypothesis_stats`

Reshape the trial table to one row per `(participantId, trialType)` mean
(`groupby(...).mean()`), pivot to participants × conditions, `dropna()`, then —
whenever at least one complete row remains — run scipy's `f_oneway` on the
per-condition column vectors and report `len(pivot_clean)` as `n_participants`.
`pandas.groupby` sorts the participant index; a pivot column exists exactly when
some trial of that condition exists, and a cell is non-null exactly when the
participant has at least one non-null reaction time in that condition.
-/

/-- Insertion of a value into a sorted list of ids. -/
def insertSorted (n : ℕ) : List ℕ → List ℕ
  | [] => [n]
  | m :: rest => if n ≤ m then n :: m :: rest else m :: insertSorted n rest

/-- Insertion sort on ids (pandas sorts the group index). -/
def sortNat : List ℕ → List ℕ
  | [] => []
  | n :: rest => insertSorted n (sortNat rest)

/-- Sorted distinct participant ids of a trial table (the pivot index). -/
def sortedParticipants (trials : List Trial) : List ℕ :=
  sortNat ((trials.map Trial.participantId).dedup)

/-- Non-null reaction times of one `(participant, condition)` group. -/
def groupRTs (trials : List Trial) (p : ℕ) (c : TType) : List ℚ :=
  trials.filterMap
    (fun tr => if tr.participantId = p ∧ tr.trialType = c then tr.reactionTime else none)

/-- One pivot cell: the group's mean reaction time, `none` (NaN) when the group
has no non-null observation or does not exist. -/
def cellMean (trials : List Trial) (p : ℕ) (c : TType) : Option ℚ :=
  if groupRTs trials p c = [] then none else some (meanQ (groupRTs trials p c))

/-- The pivot's columns: the conditions that occur in the data, in the fixed
condition order (only membership in this list is ever used). -/
def presentConds (trials : List Trial) : List TType :=
  conditions.filter (fun c => trials.any (fun tr => tr.trialType = c))

/-- Rows surviving `pivot.dropna()`: participants whose every present-condition
cell is non-null. -/
def completeParticipants (trials : List Trial) : List ℕ :=
  (sortedParticipants trials).filter
    (fun p => (presentConds trials).all (fun c => (cellMean trials p c).isSome))

/-- The reported `n_participants`. -/
def nParticipants (trials : List Trial) : ℕ := (completeParticipants trials).length

/-- Column vectors handed to `f_oneway`:
`[pivot_clean[cond] for cond in conditions if cond in pivot_clean.columns]`. -/
def anovaVectors (trials : List Trial) : List (List ℚ) :=
  (conditions.filter (fun c => c ∈ presentConds trials)).map
    (fun c => (completeParticipants trials).filterMap (fun p => cellMean trials p c))

/-- Specification-level complete cases: participants having, in every one of the
three conditions, at least one trial with a non-null reaction time. -/
def specCompleteParticipants (trials : List Trial) : List ℕ :=
  (sortedParticipants trials).filter
    (fun p =>
      conditions.all
        (fun c =>
          trials.any
            (fun tr => tr.participantId = p ∧ tr.trialType = c ∧ tr.reactionTime.isSome)))

/-- Outcome of the `/api/stats/hypothesis` endpoint: either the explicit
insufficient-data error response or a success payload carrying `n_participants`
and the `(F, p)` pair scipy returned. -/
inductive HypResult where
  | insufficient
  | success (nParticipants : ℕ) (fp : ℚ × ℚ)
deriving DecidableEq, Repr

/-- Embedding of the branch structure of `get_hypothesis_stats`: the success
path is taken whenever `len(pivot_clean) > 0`; only an empty complete-case
table produces the insufficient-data response.  `fOneway` abstracts
`scipy.stats.f_oneway`. -/
def get_hypothesis_stats (fOneway : List (List ℚ) → ℚ × ℚ)
    (trials : List Trial) : HypResult :=
  if nParticipants trials > 0 then
    HypResult.success (nParticipants trials) (fOneway (anovaVectors trials))
  else HypResult.insufficient

/-!
## Analyzer construction: outlier cleaning and path efficiency

`SubliminalPrimingAnalyzer.__init__` (both revisions) filters the trial table to
rows with a non-null `reactionTime` strictly below the outlier threshold, then
`_calculate_metrics` assigns `pathEfficiency = 800 / pathLength` with no guard
on `pathLength`; the pandas/numpy float division of the positive constant by
zero yields `+inf`, not a missing value, and `dropna()` does not remove
infinities.
-/

/-- Row filter of the constructor's outlier cleaning. -/
def keepTrial (thr : ℚ) (tr : Trial) : Prop :=
  ∃ rt, tr.reactionTime = some rt ∧ rt < thr

instance (thr : ℚ) (tr : Trial) : Decidable (keepTrial thr tr) := by
  unfold keepTrial
  exact
    match tr.reactionTime with
    | none => isFalse (by simp)
    | some rt =>
        if h : rt < thr then isTrue ⟨rt, rfl, h⟩
        else isFalse (by simpa using h)

/-- Cleaned trial table kept by the constructor. -/
def cleanTrials (thr : ℚ) (trials : List Trial) : List Trial :=
  trials.filter (fun tr => decide (keepTrial thr tr))

/-- Analyzer state after `__init__`: the raw input and the cleaned table every
statistical method reads (`self.trials_df`). -/
structure AnalyzerState where
  rawTrials : List Trial
  trialsDf : List Trial

/-- Embedding of the constructor's data-cleaning effect. -/
def mkAnalyzer (trials : List Trial) (thr : ℚ) : AnalyzerState :=
  ⟨trials, cleanTrials thr trials⟩

/-- Default data read by `test_main_hypothesis` (`data_subset=None` uses
`self.trials_df`). -/
def mainHypothesisInput (st : AnalyzerState) : List Trial := st.trialsDf

/-- Value of one cell of a numpy/pandas float column: finite, an infinity, or
NaN.  Coordinates of the experiment are exactly representable, so the finite
case carries a rational. -/
inductive PyFloat where
  | fin (q : ℚ)
  | inf
  | ninf
  | nan
deriving DecidableEq, Repr

/-- IEEE division of the constant numerator by a cell value, as numpy performs
it inside the `800 / pathLength` column expression. -/
def pyDiv (a b : ℚ) : PyFloat :=
  if b = 0 then
    if a = 0 then PyFloat.nan else if a > 0 then PyFloat.inf else PyFloat.ninf
  else PyFloat.fin (a / b)

/-- Embedding of the `pathEfficiency` column formula of `_calculate_metrics`
(both analyzer revisions): `800 / pathLength`, unguarded. -/
def pathEfficiency (pathLength : ℚ) : PyFloat := pyDiv 800 pathLength

/-- Column `dropna()`: removes NaN cells only — infinities survive and flow
into the condition means and ANOVA inputs. -/
def dropnaF (l : List PyFloat) : List PyFloat := l.filter (fun v => v ≠ PyFloat.nan)

/-!
## Between-group comparisons

`_analyze_single_demographic` runs `stats.ttest_ind` only when the column has
exactly two distinct non-missing values (and both groups have data); for three
or more distinct values no inferential test exists in the function.
`analyze_age_effects` runs `stats.f_oneway` whenever at least two non-empty age
groups remain — including exactly two.
-/

/-- Trial slice used by the demographic comparison: the grouping cell and the
reaction time.  Categories are encoded as integers. -/
structure DTrial where
  demoVal : Option ℤ
  reactionTime : Option ℚ
deriving DecidableEq, Repr

/-- Distinct non-null values of the grouping column (`dropna().unique()`; only
the number of distinct values and membership are ever used below, so the
duplicate-free list `dedup` is an adequate image of pandas' order-preserving
`unique`). -/
def uniqueVals (l : List DTrial) : List ℤ := (l.filterMap DTrial.demoVal).dedup

/-- Non-null reaction times of one demographic group. -/
def demoRTs (l : List DTrial) (v : ℤ) : List ℚ :=
  l.filterMap (fun tr => if tr.demoVal = some v then tr.reactionTime else none)

/-- What inferential test `_analyze_single_demographic` ran, if any. -/
inductive DemoResult where
  | noTest
  | tTestRun (tp : ℚ × ℚ)
deriving DecidableEq, Repr

/-- Embedding of the test-selection logic of `_analyze_single_demographic`:
fewer than 2 distinct values → early return; exactly 2 → independent t-test when
both groups have non-null reaction times; 3 or more → the function finishes
without running any statistical test. -/
def analyzeSingleDemographic (ttestInd : List ℚ → List ℚ → ℚ × ℚ)
    (l : List DTrial) : DemoResult :=
  match uniqueVals l with
  | [v1, v2] =>
      let rt1 := demoRTs l v1
      let rt2 := demoRTs l v2
      if rt1.length > 0 ∧ rt2.length > 0 then DemoResult.tTestRun (ttestInd rt1 rt2)
      else DemoResult.noTest
  | _ => DemoResult.noTest

/-- Trial slice used by the age analysis: the (already bucketed) age-group label
and the reaction time. -/
structure ATrial where
  ageGroup : Option String
  reactionTime : Option ℚ
deriving DecidableEq, Repr

/-- The hard-coded display order of age buckets (`age_order`). -/
def ageOrder : List String := ["18-25", "26-35", "36-45", "46-60", "60+"]

/-- Non-null reaction times of one age group. -/
def ageRTs (l : List ATrial) (ag : String) : List ℚ :=
  l.filterMap (fun tr => if tr.ageGroup = some ag then tr.reactionTime else none)

/-- What test `analyze_age_effects` ran, if any: the ANOVA result records how
many non-empty groups were fed to `f_oneway`. -/
inductive AgeResult where
  | noTest
  | anovaRun (nGroups : ℕ) (fp : ℚ × ℚ)
deriving DecidableEq, Repr

/-- Embedding of the test-selection logic of `analyze_age_effects`: fewer than 2
distinct age groups → early return; otherwise order the groups by `age_order`,
drop groups with no non-null reaction time, and run `f_oneway` whenever at least
2 groups remain — there is no two-group t-test branch. -/
def analyzeAgeEffects (fOneway : List (List ℚ) → ℚ × ℚ) (l : List ATrial) : AgeResult :=
  let uvals := (l.filterMap ATrial.ageGroup).dedup
  if uvals.length < 2 then AgeResult.noTest
  else
    let ags := ageOrder.filter (fun ag => ag ∈ uvals)
    if 2 ≤ ags.length then
      let gs := (ags.map (fun ag => ageRTs l ag)).filter (fun g => g ≠ [])
      if 2 ≤ gs.length then AgeResult.anovaRun gs.length (fOneway gs) else AgeResult.noTest
    else AgeResult.noTest

/-!
## Concrete inputs used to instantiate the claims
-/

/-- Trial with a non-null reaction time. -/
def mkT (p : ℕ) (c : TType) (rt : ℚ) : Trial := ⟨p, c, some rt⟩

/-- Scenario for the repeated-measures completeness claim: participants 1–5
have all three conditions, participant 6 lacks `CONCURRENT_SUPRA`, participant 7
lacks `PRE_JND`; 19 raw trials in total. -/
def ex1 : List Trial :=
  [mkT 1 TType.preSupra 200, mkT 1 TType.preJnd 250, mkT 1 TType.concurrentSupra 300,
   mkT 2 TType.preSupra 210, mkT 2 TType.preJnd 255, mkT 2 TType.concurrentSupra 310,
   mkT 3 TType.preSupra 205, mkT 3 TType.preJnd 245, mkT 3 TType.concurrentSupra 295,
   mkT 4 TType.preSupra 215, mkT 4 TType.preJnd 260, mkT 4 TType.concurrentSupra 305,
   mkT 5 TType.preSupra 220, mkT 5 TType.preJnd 265, mkT 5 TType.concurrentSupra 315,
   mkT 6 TType.preSupra 230, mkT 6 TType.preJnd 270,
   mkT 7 TType.preSupra 240, mkT 7 TType.concurrentSupra 320]

/-- Input with exactly 2 complete participants (each with one trial per
condition). -/
def ex2 : List Trial :=
  [mkT 1 TType.preSupra 200, mkT 1 TType.preJnd 250, mkT 1 TType.concurrentSupra 300,
   mkT 2 TType.preSupra 210, mkT 2 TType.preJnd 260, mkT 2 TType.concurrentSupra 310]

/-- Stand-in for `scipy.stats.f_oneway` returning a fixed `(F, p)` pair. -/
def fOneEx : List (List ℚ) → ℚ × ℚ := fun _ => (7, 1)

/-- Stand-in for a scipy t-test returning a fixed `(t, p)` pair. -/
def ttIndEx : List ℚ → List ℚ → ℚ × ℚ := fun _ _ => (3, 1)

/-- Second stand-in t-test, distinguishable from `ttIndEx`. -/
def ttRelEx : List ℚ → List ℚ → ℚ × ℚ := fun _ _ => (5, 1)

/-- Discriminator: did the age analysis run its ANOVA? -/
def AgeResult.isAnova : AgeResult → Bool
  | AgeResult.anovaRun _ _ => true
  | AgeResult.noTest => false

/-- Number of groups the age analysis fed to `f_oneway` (0 when no test ran). -/
def AgeResult.groupCount : AgeResult → ℕ
  | AgeResult.anovaRun k _ => k
  | AgeResult.noTest => 0

/-- Stand-in for `scipy.signal.find_peaks`-based counting. -/
def fpZero : List ℝ → ℕ := fun _ => 0

/-- Synthetic zig-zag path whose two computed bearings differ by exactly π. -/
def zigzagPi : List Pt := [⟨0, 0, 0⟩, ⟨1, 0, 10⟩, ⟨2, 0, 20⟩, ⟨1, 0, 30⟩]

/-- Valid 3-sample trajectory (fewer than the 4 samples jerk needs). -/
def path3 : List Pt := [⟨0, 0, 0⟩, ⟨1, 0, 10⟩, ⟨2, 1, 20⟩]

/-- One trial per condition (non-empty condition samples for the group-level
post-hoc block). -/
def ex5 : List Trial :=
  [mkT 1 TType.preSupra 200, mkT 1 TType.preJnd 250, mkT 1 TType.concurrentSupra 300]

/-- Two trials per condition: every pairwise comparison sees equal sample
sizes. -/
def exEq : List Trial :=
  [mkT 1 TType.preSupra 200, mkT 1 TType.preSupra 202,
   mkT 1 TType.preJnd 250, mkT 1 TType.preJnd 252,
   mkT 1 TType.concurrentSupra 300, mkT 1 TType.concurrentSupra 302]

/-- Three `PRE_SUPRA` trials against two in each other condition: the two
comparisons involving `PRE_SUPRA` see unequal sizes, the third equal sizes. -/
def exUneq : List Trial :=
  [mkT 1 TType.preSupra 200, mkT 1 TType.preSupra 202, mkT 1 TType.preSupra 204,
   mkT 1 TType.preJnd 250, mkT 1 TType.preJnd 252,
   mkT 1 TType.concurrentSupra 300, mkT 1 TType.concurrentSupra 302]

/-- Age table with exactly two non-empty age groups. -/
def exAge2 : List ATrial :=
  [⟨some "18-25", some 200⟩, ⟨some "18-25", some 210⟩,
   ⟨some "26-35", some 300⟩, ⟨some "26-35", some 310⟩]

/-- Age table with three non-empty age groups. -/
def exAge3 : List ATrial :=
  [⟨some "18-25", some 200⟩, ⟨some "26-35", some 300⟩, ⟨some "36-45", some 400⟩]

/-- Demographic column with three distinct non-missing values. -/
def exDemo3 : List DTrial :=
  [⟨some 0, some 200⟩, ⟨some 1, some 210⟩, ⟨some 2, some 220⟩]

/-- Demographic column with exactly two distinct non-missing values. -/
def exDemo2 : List DTrial :=
  [⟨some 0, some 200⟩, ⟨some 0, some 205⟩, ⟨some 1, some 210⟩]

/-- Small trial table for the cleaning claim: one keepable row, one null
reaction time, one outlier at 60000 ms. -/
def exClean : List Trial :=
  [⟨1, TType.preSupra, some 100⟩, ⟨2, TType.preJnd, none⟩,
   ⟨3, TType.concurrentSupra, some 60000⟩]

/-!
## Helper lemmas
-/

theorem calcVelocities_eq_filterMap (path : List Pt) :
    calcVelocities path = (path.zip path.tail).filterMap pairVel := by
  induction path with
  | nil => rfl
  | cons p rest ih =>
    cases rest with
    | nil => rfl
    | cons q rest' =>
      by_cases h : (q.t - p.t) / 1000 > 0 <;>
        simp [calcVelocities, pairVel, h, List.filterMap_cons] <;>
        simpa using ih

theorem calcVelocities_nonneg (path : List Pt) (v : ℝ) (hv : v ∈ calcVelocities path) :
    0 ≤ v := by
  induction path with
  | nil => simp [calcVelocities] at hv
  | cons p rest ih =>
    cases rest with
    | nil => simp [calcVelocities] at hv
    | cons q rest' =>
      by_cases h : (q.t - p.t) / 1000 > 0
      · rw [calcVelocities, if_pos h] at hv
        rcases List.mem_cons.mp hv with h1 | h2
        · subst h1
          have hdt : (0 : ℝ) < ((q.t : ℝ) - (p.t : ℝ)) / 1000 := by
            have : (0 : ℚ) < (q.t - p.t) / 1000 := h
            have := (Rat.cast_pos (K := ℝ)).mpr this
            push_cast at this
            linarith
          exact div_nonneg (Real.sqrt_nonneg _) (le_of_lt hdt)
        · exact ih h2
      · rw [calcVelocities, if_neg h] at hv
        exact ih hv

theorem calcVelocities_length (path : List Pt) :
    (calcVelocities path).length ≤ path.length - 1 := by
  induction path with
  | nil => simp [calcVelocities]
  | cons p rest ih =>
    cases rest with
    | nil => simp [calcVelocities]
    | cons q rest' =>
      have hr := ih
      simp only [List.length_cons] at hr ⊢
      by_cases h : (q.t - p.t) / 1000 > 0 <;>
        · rw [calcVelocities]
          simp only [h, if_true, if_false, List.length_cons]
          omega

theorem countChanges_cons (a b : ℝ) (t : List ℝ) :
    countChanges (a :: b :: t) =
      (if wrappedDiff a b > Real.pi / 6 then 1 else 0) + countChanges (b :: t) := by
  rw [countChanges]

theorem dirChangesGo_eq (l : List Pt) :
    ∀ (prev : Option ℝ) (c : ℕ),
      dirChangesGo prev c l = c + countChanges (prev.toList ++ bearings l) := by
  induction l with
  | nil =>
    intro prev c
    cases prev <;> simp [dirChangesGo, bearings, countChanges]
  | cons p rest ih =>
    cases rest with
    | nil =>
      intro prev c
      cases prev <;> simp [dirChangesGo, bearings, countChanges]
    | cons q rest' =>
      intro prev c
      cases prev with
      | none =>
        by_cases hz : segZero p q
        · rw [dirChangesGo, if_pos hz, bearings, if_pos hz]
          exact ih none c
        · rw [dirChangesGo, if_neg hz, bearings, if_neg hz]
          rw [ih (some (segAngle p q)) c]
          simp
      | some pa =>
        by_cases hz : segZero p q
        · rw [dirChangesGo, if_pos hz, bearings, if_pos hz]
          exact ih (some pa) c
        · rw [dirChangesGo, if_neg hz, bearings, if_neg hz]
          rw [ih (some (segAngle p q))]
          simp only [Option.toList_some, List.cons_append, List.nil_append,
            List.singleton_append]
          rw [countChanges_cons]
          by_cases hd : wrappedDiff pa (segAngle p q) > Real.pi / 6 <;>
            simp [hd] <;> omega

theorem bearings_dup (l1 : List Pt) (p : Pt) (l2 : List Pt) :
    bearings (l1 ++ p :: p :: l2) = bearings (l1 ++ p :: l2) := by
  have hz : segZero p p := ⟨by ring, by ring⟩
  induction l1 with
  | nil => simp [bearings, hz]
  | cons a l1' ih =>
    cases l1' with
    | nil =>
      by_cases h : segZero a p <;> simp [bearings, h, hz]
    | cons b l1'' =>
      simp only [List.cons_append] at ih ⊢
      by_cases h : segZero a b <;> simp [bearings, h, ih]

theorem atan2_zero_one : atan2 0 1 = 0 := by
  have h1 : (⟨1, 0⟩ : ℂ) = 1 := by
    apply Complex.ext <;> simp
  rw [atan2, h1, Complex.arg_one]

theorem atan2_zero_neg_one : atan2 0 (-1) = Real.pi := by
  have h1 : (⟨-1, 0⟩ : ℂ) = -1 := by
    apply Complex.ext <;> simp
  rw [atan2, h1, Complex.arg_neg_one]

theorem wrappedDiff_min (a b : ℝ) (h : |b - a| ≤ 2 * Real.pi) :
    wrappedDiff a b = min |b - a| (2 * Real.pi - |b - a|) := by
  rw [wrappedDiff]
  by_cases hd : |b - a| > Real.pi
  · rw [if_pos hd, min_eq_right (by linarith)]
  · rw [if_neg hd, min_eq_left (by push_neg at hd; linarith)]

theorem metricsStep_participantId (fp : List ℝ → ℕ) (r : Row) :
    (metricsStep fp r).participantId = r.participantId := by
  rcases r with ⟨pid, tt, rt, mp, avg, sv, vp, jk, mrt⟩
  cases mp <;> simp only [metricsStep] <;> split_ifs <;> rfl

theorem metricsStep_trialType (fp : List ℝ → ℕ) (r : Row) :
    (metricsStep fp r).trialType = r.trialType := by
  rcases r with ⟨pid, tt, rt, mp, avg, sv, vp, jk, mrt⟩
  cases mp <;> simp only [metricsStep] <;> split_ifs <;> rfl

theorem metricsStep_reactionTime (fp : List ℝ → ℕ) (r : Row) :
    (metricsStep fp r).reactionTime = r.reactionTime := by
  rcases r with ⟨pid, tt, rt, mp, avg, sv, vp, jk, mrt⟩
  cases mp <;> simp only [metricsStep] <;> split_ifs <;> rfl

theorem metricsStep_movementPath (fp : List ℝ → ℕ) (r : Row) :
    (metricsStep fp r).movementPath = r.movementPath := by
  rcases r with ⟨pid, tt, rt, mp, avg, sv, vp, jk, mrt⟩
  cases mp <;> simp only [metricsStep] <;> split_ifs <;> rfl

theorem metricsStep_source (fp : List ℝ → ℕ) (r : Row) :
    rowSource (metricsStep fp r) = rowSource r := by
  rw [rowSource, rowSource, metricsStep_participantId, metricsStep_trialType,
    metricsStep_reactionTime, metricsStep_movementPath]

theorem metricsStep_setMean (fp : List ℝ → ℕ) (r : Row) (v : Option ℚ) :
    metricsStep fp { r with trialTypeMeanRT := v } =
      { metricsStep fp r with trialTypeMeanRT := v } := by
  rcases r with ⟨pid, tt, rt, mp, avg, sv, vp, jk, mrt⟩
  cases mp <;> simp only [metricsStep] <;> split_ifs <;> rfl

theorem metricsStep_idem (fp : List ℝ → ℕ) (r : Row) :
    metricsStep fp (metricsStep fp r) = metricsStep fp r := by
  rcases r with ⟨pid, tt, rt, mp, avg, sv, vp, jk, mrt⟩
  cases mp with
  | none => rfl
  | some path =>
    by_cases h1 : path.length < 3
    · have hinner :
          metricsStep fp (⟨pid, tt, rt, some path, avg, sv, vp, jk, mrt⟩ : Row) =
            ⟨pid, tt, rt, some path, avg, sv, vp, jk, mrt⟩ := by
        simp [metricsStep, h1]
      rw [hinner, hinner]
    · by_cases h2 : (calcVelocities path).length > 0
      · have hinner :
            metricsStep fp (⟨pid, tt, rt, some path, avg, sv, vp, jk, mrt⟩ : Row) =
              ⟨pid, tt, rt, some path, some (meanR (calcVelocities path)),
                some (varR (calcVelocities path)),
                (if (calcVelocities path).length > 2 then some (fp (calcVelocities path))
                 else vp),
                (if (calcVelocities path).length > 3 then
                   if (diffs (calcVelocities path)).length > 1 then
                     some (meanR ((diffs (diffs (calcVelocities path))).map (fun x => |x|)))
                   else jk
                 else jk),
                mrt⟩ := by
          simp [metricsStep, h1, h2]
        rw [hinner]
        simp only [metricsStep, h1, h2, if_false, if_true, gt_iff_lt, not_lt]
        split_ifs <;> rfl
      · have hinner :
            metricsStep fp (⟨pid, tt, rt, some path, avg, sv, vp, jk, mrt⟩ : Row) =
              ⟨pid, tt, rt, some path, avg, sv, vp, jk, mrt⟩ := by
          simp [metricsStep, h1, h2]
        rw [hinner, hinner]

theorem filterMap_pairProj (l : List Row) (c : TType) :
    (l.filter (fun r => r.trialType = c)).filterMap (fun r => r.reactionTime) =
      (l.map (fun r => (r.trialType, r.reactionTime))).filterMap
        (fun pr => if pr.1 = c then pr.2 else none) := by
  induction l with
  | nil => rfl
  | cons r rest ih =>
    by_cases h : r.trialType = c
    · rcases hrt : r.reactionTime with _ | q <;>
        simp [List.filter_cons, List.filterMap_cons, h, hrt, ih]
    · simp [List.filter_cons, List.filterMap_cons, h, ih]

theorem condMeanRT_congr (l l' : List Row)
    (h : l.map (fun r => (r.trialType, r.reactionTime)) =
      l'.map (fun r => (r.trialType, r.reactionTime)))
    (c : TType) : condMeanRT l c = condMeanRT l' c := by
  unfold condMeanRT
  rw [filterMap_pairProj l c, filterMap_pairProj l' c, h]

theorem map_proj_setCondMeans (l : List Row) :
    (setCondMeans l).map (fun r => (r.trialType, r.reactionTime)) =
      l.map (fun r => (r.trialType, r.reactionTime)) := by
  rw [setCondMeans, List.map_map]
  rfl

theorem cellMean_isSome_iff (trials : List Trial) (p : ℕ) (c : TType) :
    (cellMean trials p c).isSome = true ↔
      ∃ tr ∈ trials,
        tr.participantId = p ∧ tr.trialType = c ∧ tr.reactionTime.isSome = true := by
  rw [cellMean]
  by_cases h : groupRTs trials p c = []
  · rw [if_pos h]
    simp only [Option.isSome_none, Bool.false_eq_true, false_iff]
    rintro ⟨tr, htr, hpid, hty, hrt⟩
    rw [groupRTs, List.filterMap_eq_nil_iff] at h
    have hnone := h tr htr
    rw [if_pos ⟨hpid, hty⟩] at hnone
    rw [hnone] at hrt
    simp at hrt
  · rw [if_neg h]
    simp only [Option.isSome_some, true_iff]
    obtain ⟨q, hq⟩ := List.exists_mem_of_ne_nil _ h
    obtain ⟨tr, htr, hmap⟩ := List.mem_filterMap.mp hq
    by_cases hcond : tr.participantId = p ∧ tr.trialType = c
    · rw [if_pos hcond] at hmap
      exact ⟨tr, htr, hcond.1, hcond.2, by rw [hmap]; rfl⟩
    · rw [if_neg hcond] at hmap
      exact absurd hmap (by simp)

theorem complete_eq_spec (trials : List Trial)
    (h : ∀ c ∈ conditions, ∃ tr ∈ trials, tr.trialType = c) :
    completeParticipants trials = specCompleteParticipants trials := by
  have hpres : presentConds trials = conditions := by
    rw [presentConds]
    apply List.filter_eq_self.mpr
    intro c hc
    obtain ⟨tr, htr, hty⟩ := h c hc
    exact List.any_eq_true.mpr ⟨tr, htr, decide_eq_true hty⟩
  rw [completeParticipants, specCompleteParticipants, hpres]
  apply List.filter_congr
  intro p hp
  apply Bool.eq_iff_iff.mpr
  simp only [List.all_eq_true]
  constructor
  · intro hall c hc
    obtain ⟨tr, htr, hpid, hty, hrt⟩ := (cellMean_isSome_iff trials p c).mp (hall c hc)
    exact List.any_eq_true.mpr ⟨tr, htr, decide_eq_true ⟨hpid, hty, hrt⟩⟩
  · intro hall c hc
    obtain ⟨tr, htr, hd⟩ := List.any_eq_true.mp (hall c hc)
    have hd' := of_decide_eq_true hd
    exact (cellMean_isSome_iff trials p c).mpr ⟨tr, htr, hd'.1, hd'.2.1, hd'.2.2⟩

/-!
## Claim theorems
-/

/-- C1: the repeated-measures path reshapes to one row per participant and
condition, drops — whenever every condition occurs in the data — exactly the
participants lacking a (non-null) mean in one of the three conditions, and on
the 5-complete-plus-2-incomplete scenario runs the omnibus test on three
vectors of exactly the 5 complete cases and reports N = 5, distinct from the 19
raw trials. -/
theorem C1_rm_complete_case :
    (∀ trials : List Trial, (∀ c ∈ conditions, ∃ tr ∈ trials, tr.trialType = c) →
        completeParticipants trials = specCompleteParticipants trials)
    ∧ nParticipants ex1 = 5
    ∧ ex1.length = 19
    ∧ (anovaVectors ex1).map List.length = [5, 5, 5]
    ∧ specCompleteParticipants ex1 = [1, 2, 3, 4, 5] := by
  exact ⟨complete_eq_spec, by decide, by decide, by decide, by decide⟩

/-- C1 witness: the complete-case equivalence instantiated at the concrete
scenario, whose data contains every condition. -/
theorem C1_rm_complete_case_witness :
    completeParticipants ex1 = specCompleteParticipants ex1 :=
  C1_rm_complete_case.1 ex1 (by decide)

/-- C6: for trajectories of at least 3 samples the corrections counter equals
the number of consecutive computed-bearing pairs whose angular difference,
wrapped into `[0, π]` by the shorter arc (`min(Δ, 2π − Δ)`), exceeds `π/6`; a
direction change of exactly π is counted once (synthetic zig-zag);
zero-displacement segments contribute no bearing and leave the previous-bearing
state intact; and fewer than 3 samples yield a missing value. -/
theorem C6_direction_change_semantics :
    (∀ path : List Pt, 3 ≤ path.length →
        count_direction_changes path = some (countChanges (bearings path.tail)))
    ∧ (∀ path : List Pt, path.length < 3 → count_direction_changes path = none)
    ∧ count_direction_changes zigzagPi = some 1
    ∧ (∀ (l1 : List Pt) (p : Pt) (l2 : List Pt),
        bearings (l1 ++ p :: p :: l2) = bearings (l1 ++ p :: l2))
    ∧ (∀ a b : ℝ, |b - a| ≤ 2 * Real.pi →
        wrappedDiff a b = min |b - a| (2 * Real.pi - |b - a|)) := by
  refine ⟨?_, ?_, ?_, bearings_dup, wrappedDiff_min⟩
  · intro path h
    rw [count_direction_changes, if_neg (by omega)]
    rw [dirChangesGo_eq]
    simp
  · intro path h
    rw [count_direction_changes, if_pos h]
  · have hlen : ¬ (zigzagPi.length < 3) := by decide
    rw [count_direction_changes, if_neg hlen]
    rw [show zigzagPi.tail = [(⟨1, 0, 10⟩ : Pt), ⟨2, 0, 20⟩, ⟨1, 0, 30⟩] from rfl]
    rw [dirChangesGo_eq]
    have hz1 : ¬ segZero (⟨1, 0, 10⟩ : Pt) ⟨2, 0, 20⟩ := by
      rw [segZero]; norm_num
    have hz2 : ¬ segZero (⟨2, 0, 20⟩ : Pt) ⟨1, 0, 30⟩ := by
      rw [segZero]; norm_num
    have ha1 : segAngle (⟨1, 0, 10⟩ : Pt) ⟨2, 0, 20⟩ = 0 := by
      rw [segAngle]
      norm_num
      exact atan2_zero_one
    have ha2 : segAngle (⟨2, 0, 20⟩ : Pt) ⟨1, 0, 30⟩ = Real.pi := by
      rw [segAngle]
      norm_num
      exact atan2_zero_neg_one
    have hb : bearings [(⟨1, 0, 10⟩ : Pt), ⟨2, 0, 20⟩, ⟨1, 0, 30⟩] = [0, Real.pi] := by
      rw [bearings, if_neg hz1, bearings, if_neg hz2, ha1, ha2]
      rfl
    rw [hb]
    simp only [Option.toList_none, List.nil_append, Nat.zero_add]
    have hw : wrappedDiff 0 Real.pi = Real.pi := by
      rw [wrappedDiff, sub_zero, abs_of_pos Real.pi_pos, if_neg (lt_irrefl _)]
    have hgt : Real.pi / 6 < Real.pi := by
      have := Real.pi_pos
      linarith
    rw [countChanges_cons, hw, if_pos hgt]
    simp [countChanges]

/-- C7: the velocity-series computation never divides by zero: it is exactly the
filter-map of consecutive sample pairs that sends a pair with
`dt = (t2 - t1)/1000 > 0` to `distance / dt` and skips (contributes no entry
for) a pair with `dt ≤ 0`; two samples sharing a timestamp produce no entry, the
output length is at most `len(path) - 1`, and every computed velocity is
non-negative. -/
theorem C7_velocity_series_safe :
    (∀ path : List Pt, calcVelocities path = (path.zip path.tail).filterMap pairVel)
    ∧ (∀ (path : List Pt) (v : ℝ), v ∈ calcVelocities path → 0 ≤ v)
    ∧ (∀ path : List Pt, (calcVelocities path).length ≤ path.length - 1)
    ∧ (∀ p q : Pt, q.t = p.t → calcVelocities [p, q] = []) := by
  refine ⟨calcVelocities_eq_filterMap, calcVelocities_nonneg, calcVelocities_length, ?_⟩
  intro p q h
  simp [calcVelocities, h]

/-- C5 counterexample: on a concrete input the post-hoc comparisons that
accompany the group-level omnibus test are all independent-samples t-tests
(`stats.ttest_ind`), not paired tests as the claim states, and their report
lines carry only a t-statistic and p-value. -/
theorem C5_posthoc_independent_counterexample :
    (mainHypothesisPosthoc ttIndEx ex5).map PosthocLine.kind =
      [TKind.independent, TKind.independent, TKind.independent]
    ∧ TKind.paired ∉ (mainHypothesisPosthoc ttIndEx ex5).map PosthocLine.kind := by
  decide

/-- C5 amended: the pairwise tests following the group-level omnibus are always
independent t-tests reporting t and p only; per-pair mean differences are
reported by the single-participant `run_paired_tests`, which selects a paired
t-test exactly when the two conditions have equally many non-null observations
(both at least 2) and otherwise falls back to an independent t-test. -/
theorem C5_posthoc_amended :
    (∀ (tt : List ℚ → List ℚ → ℚ × ℚ) (trials : List Trial),
        ∀ line ∈ mainHypothesisPosthoc tt trials, line.kind = TKind.independent)
    ∧ (∀ (rel ind : List ℚ → List ℚ → ℚ × ℚ) (d1 d2 : List ℚ),
        2 ≤ d1.length → 2 ≤ d2.length →
        ∃ res, comparePair rel ind d1 d2 = some res ∧
          res.kind = (if d1.length = d2.length then TKind.paired else TKind.independent) ∧
          res.meanDifference = meanQ d1 - meanQ d2)
    ∧ (run_paired_tests ttRelEx ttIndEx exEq).map PairedRes.kind =
        [TKind.paired, TKind.paired, TKind.paired]
    ∧ (run_paired_tests ttRelEx ttIndEx exUneq).map PairedRes.kind =
        [TKind.independent, TKind.independent, TKind.paired] := by
  refine ⟨?_, ?_, by decide, by decide⟩
  · intro tt trials line hline
    simp only [mainHypothesisPosthoc] at hline
    split at hline
    · simp only [List.mem_cons, List.not_mem_nil, or_false] at hline
      rcases hline with rfl | rfl | rfl <;> rfl
    · simp at hline
  · intro rel ind d1 d2 h1 h2
    rw [comparePair, if_neg (by omega)]
    exact ⟨_, rfl, rfl, rfl⟩

/-- C5 amended witness: the pair-comparison contract instantiated at two
concrete equal-length samples. -/
theorem C5_posthoc_amended_witness :
    ∃ res, comparePair ttRelEx ttIndEx [1, 2] [3, 4] = some res ∧
      res.kind =
        (if ([1, 2] : List ℚ).length = ([3, 4] : List ℚ).length then TKind.paired
         else TKind.independent) ∧
      res.meanDifference = meanQ [1, 2] - meanQ [3, 4] :=
  C5_posthoc_amended.2.1 ttRelEx ttIndEx [1, 2] [3, 4] (by decide) (by decide)

/-- C8 counterexample: the age-group comparison runs a one-way ANOVA on an
input with exactly two non-empty groups (instead of the claimed t-test), and a
demographic column with three distinct values triggers no statistical test at
all (instead of the claimed ANOVA). -/
theorem C8_group_autoselect_counterexample :
    (analyzeAgeEffects fOneEx exAge2).isAnova = true
    ∧ (analyzeAgeEffects fOneEx exAge2).groupCount = 2
    ∧ analyzeSingleDemographic ttIndEx exDemo3 = DemoResult.noTest := by
  decide

/-- C8 amended: the demographic comparison runs an independent t-test only for
exactly two distinct non-missing values and runs no test for three or more (or
fewer than two); the age comparison runs a one-way ANOVA for every count of at
least two non-empty groups, including exactly two. -/
theorem C8_group_autoselect_amended :
    (∀ (tt : List ℚ → List ℚ → ℚ × ℚ) (l : List DTrial), 3 ≤ (uniqueVals l).length →
        analyzeSingleDemographic tt l = DemoResult.noTest)
    ∧ (∀ (tt : List ℚ → List ℚ → ℚ × ℚ) (l : List DTrial), (uniqueVals l).length < 2 →
        analyzeSingleDemographic tt l = DemoResult.noTest)
    ∧ (∀ (f : List (List ℚ) → ℚ × ℚ) (l : List ATrial) (k : ℕ) (fp : ℚ × ℚ),
        analyzeAgeEffects f l = AgeResult.anovaRun k fp → 2 ≤ k)
    ∧ (analyzeAgeEffects fOneEx exAge3).isAnova = true
    ∧ (analyzeAgeEffects fOneEx exAge3).groupCount = 3
    ∧ analyzeSingleDemographic ttIndEx exDemo2 = DemoResult.tTestRun (3, 1) := by
  refine ⟨?_, ?_, ?_, by decide, by decide, by decide⟩
  · intro tt l h
    rcases huv : uniqueVals l with _ | ⟨v1, _ | ⟨v2, _ | ⟨v3, rest⟩⟩⟩
    · simp [analyzeSingleDemographic, huv]
    · simp [analyzeSingleDemographic, huv]
    · rw [huv] at h
      simp at h
    · simp [analyzeSingleDemographic, huv]
  · intro tt l h
    rcases huv : uniqueVals l with _ | ⟨v1, _ | ⟨v2, rest⟩⟩
    · simp [analyzeSingleDemographic, huv]
    · simp [analyzeSingleDemographic, huv]
    · rw [huv] at h
      simp at h
      omega
  · intro f l k fp hres
    simp only [analyzeAgeEffects] at hres
    split at hres
    · exact absurd hres (by simp)
    · split at hres
      · split at hres
        · rename_i hgs
          rw [AgeResult.anovaRun.injEq] at hres
          omega
        · exact absurd hres (by simp)
      · exact absurd hres (by simp)

/-- C8 amended witness: the never-fewer-than-two-groups ANOVA bound
instantiated at the concrete two-group age table. -/
theorem C8_group_autoselect_amended_witness :
    2 ≤ 2 ∧ analyzeSingleDemographic ttIndEx exDemo3 = DemoResult.noTest :=
  ⟨C8_group_autoselect_amended.2.2.1 fOneEx exAge2 2 (7, 1) (by decide),
   C8_group_autoselect_amended.1 ttIndEx exDemo3 (by decide)⟩

/-- C9: the per-trial metrics pass is a pure idempotent transform — it keeps the
row count and order, leaves every source field untouched (only derived columns
are written), and running it again on its own output reproduces the same
table. -/
theorem C9_metrics_pass_pure :
    (∀ (fp : List ℝ → ℕ) (rows : List Row),
        (calculate_advanced_metrics fp rows).length = rows.length)
    ∧ (∀ (fp : List ℝ → ℕ) (rows : List Row),
        (calculate_advanced_metrics fp rows).map rowSource = rows.map rowSource)
    ∧ (∀ (fp : List ℝ → ℕ) (rows : List Row),
        calculate_advanced_metrics fp (calculate_advanced_metrics fp rows) =
          calculate_advanced_metrics fp rows) := by
  refine ⟨?_, ?_, ?_⟩
  · intro fp rows
    simp [calculate_advanced_metrics, setCondMeans]
  · intro fp rows
    rw [calculate_advanced_metrics, setCondMeans, List.map_map, List.map_map]
    apply List.map_congr_left
    intro r hr
    show rowSource
        { metricsStep fp r with
          trialTypeMeanRT :=
            condMeanRT (rows.map (metricsStep fp)) (metricsStep fp r).trialType } =
      rowSource r
    rw [show rowSource
          { metricsStep fp r with
            trialTypeMeanRT :=
              condMeanRT (rows.map (metricsStep fp)) (metricsStep fp r).trialType } =
        rowSource (metricsStep fp r) from rfl]
    exact metricsStep_source fp r
  · intro fp rows
    conv_lhs => rw [calculate_advanced_metrics]
    have hBstep :
        (calculate_advanced_metrics fp rows).map (metricsStep fp) =
          calculate_advanced_metrics fp rows := by
      rw [calculate_advanced_metrics, setCondMeans, List.map_map]
      apply List.map_congr_left
      intro r hr
      obtain ⟨r0, hr0, rfl⟩ := List.mem_map.mp hr
      show metricsStep fp
          { metricsStep fp r0 with
            trialTypeMeanRT :=
              condMeanRT (rows.map (metricsStep fp)) (metricsStep fp r0).trialType } =
        { metricsStep fp r0 with
          trialTypeMeanRT :=
            condMeanRT (rows.map (metricsStep fp)) (metricsStep fp r0).trialType }
      rw [metricsStep_setMean, metricsStep_idem]
    rw [hBstep]
    have hproj :
        (calculate_advanced_metrics fp rows).map (fun r => (r.trialType, r.reactionTime)) =
          (rows.map (metricsStep fp)).map (fun r => (r.trialType, r.reactionTime)) := by
      rw [calculate_advanced_metrics]
      exact map_proj_setCondMeans (rows.map (metricsStep fp))
    calc
      setCondMeans (calculate_advanced_metrics fp rows) =
          (calculate_advanced_metrics fp rows).map
            (fun r =>
              { r with
                trialTypeMeanRT := condMeanRT (calculate_advanced_metrics fp rows) r.trialType }) :=
        rfl
      _ = (calculate_advanced_metrics fp rows).map
            (fun r =>
              { r with
                trialTypeMeanRT := condMeanRT (rows.map (metricsStep fp)) r.trialType }) := by
        apply List.map_congr_left
        intro r hr
        rw [condMeanRT_congr _ _ hproj]
      _ = (rows.map (metricsStep fp)).map
            (fun r =>
              { r with
                trialTypeMeanRT := condMeanRT (rows.map (metricsStep fp)) r.trialType }) := by
        rw [calculate_advanced_metrics, setCondMeans, List.map_map]
        rfl
      _ = calculate_advanced_metrics fp rows := rfl

/-- C10: after the analyzer constructor runs, every row of the cleaned trial
table has a non-null reaction time strictly below the outlier threshold; the
cleaning only removes rows (it is a sublist of the input, order preserved),
removes nothing else, and the table the main hypothesis test reads is exactly
this once-cleaned table. -/
theorem C10_cleaned_table_invariant :
    (∀ (trials : List Trial) (thr : ℚ) (tr : Trial),
        tr ∈ (mkAnalyzer trials thr).trialsDf → ∃ rt, tr.reactionTime = some rt ∧ rt < thr)
    ∧ (∀ (trials : List Trial) (thr : ℚ), ((mkAnalyzer trials thr).trialsDf).Sublist trials)
    ∧ (∀ (trials : List Trial) (thr : ℚ) (tr : Trial),
        tr ∈ trials → keepTrial thr tr → tr ∈ (mkAnalyzer trials thr).trialsDf)
    ∧ (∀ (trials : List Trial) (thr : ℚ),
        mainHypothesisInput (mkAnalyzer trials thr) = cleanTrials thr trials) := by
  refine ⟨?_, ?_, ?_, ?_⟩
  · intro trials thr tr htr
    have h := List.of_mem_filter htr
    simpa [keepTrial] using of_decide_eq_true h
  · intro trials thr
    exact List.filter_sublist _
  · intro trials thr tr htr hk
    exact List.mem_filter.mpr ⟨htr, decide_eq_true hk⟩
  · intro trials thr
    rfl

/-- C3 counterexample: a valid 3-sample trajectory (fewer than the 4 samples
jerk needs) gets its jerk cell assigned the value 0 by
`_calculate_advanced_metrics` — the metric is defaulted to zero, not left
missing as the claim states. -/
theorem C3_short_jerk_counterexample :
    (computeTrialMetrics fpZero (some path3)).map TrialMetrics.jerk = some 0 ∧
      path3.length < 4 := by
  refine ⟨?_, by decide⟩
  rw [computeTrialMetrics, if_neg (by decide : ¬ (path3.length < 3))]
  rw [Option.map_some']
  show some (calculateJerk path3) = some 0
  rw [calculateJerk, if_pos (by decide : path3.length < 4)]

/-- C3 amended: trajectories that are missing, malformed, or shorter than 3
samples leave every derived metric missing, but a valid trajectory of exactly 3
samples has its jerk cell set to 0 (`_calculate_jerk` returns 0 below 4
samples) rather than left missing. -/
theorem C3_short_path_missingness_amended :
    (∀ fp : List ℝ → ℕ, computeTrialMetrics fp none = none)
    ∧ (∀ (fp : List ℝ → ℕ) (path : List Pt), path.length < 3 →
        computeTrialMetrics fp (some path) = none)
    ∧ (∀ (fp : List ℝ → ℕ) (path : List Pt), 3 ≤ path.length → path.length < 4 →
        (computeTrialMetrics fp (some path)).map TrialMetrics.jerk = some 0) := by
  refine ⟨fun fp => rfl, ?_, ?_⟩
  · intro fp path h
    rw [computeTrialMetrics, if_pos h]
  · intro fp path h3 h4
    rw [computeTrialMetrics, if_neg (by omega)]
    rw [Option.map_some']
    show some (calculateJerk path) = some 0
    rw [calculateJerk, if_pos h4]

/-- C3 amended witness: at the concrete 3-sample trajectory the amended claim's
hypotheses hold and the jerk cell is 0. -/
theorem C3_short_path_missingness_amended_witness :
    (computeTrialMetrics fpZero (some path3)).map TrialMetrics.jerk = some 0 :=
  C3_short_path_missingness_amended.2.2 fpZero path3 (by decide) (by decide)

/-- C4 counterexample: a trial with `pathLength = 0` gets `pathEfficiency =
+inf` — not a missing value — and the infinity survives the column `dropna()`,
so it does reach the downstream means, contrary to the claim. -/
theorem C4_path_efficiency_counterexample :
    pathEfficiency 0 = PyFloat.inf ∧ PyFloat.inf ∈ dropnaF [pathEfficiency 0] := by
  decide

/-- C4 amended: `pathEfficiency` is the unguarded quotient `800 / pathLength`:
finite (and equal to the spec's ratio) for every non-zero path length, but equal
to `+inf` at `pathLength = 0`, and `dropna()` does not remove infinities, so the
infinite value can reach a mean or a significance test. -/
theorem C4_path_efficiency_amended :
    (∀ pl : ℚ, pl ≠ 0 → pathEfficiency pl = PyFloat.fin (800 / pl))
    ∧ pathEfficiency 0 = PyFloat.inf
    ∧ (∀ l : List PyFloat, PyFloat.inf ∈ l → PyFloat.inf ∈ dropnaF l) := by
  refine ⟨?_, by decide, ?_⟩
  · intro pl h
    rw [pathEfficiency, pyDiv, if_neg h]
  · intro l h
    exact List.mem_filter.mpr ⟨h, by decide⟩

/-- C4 amended witness: the amended claim instantiated at the concrete path
lengths 400 and 0. -/
theorem C4_path_efficiency_amended_witness :
    pathEfficiency 400 = PyFloat.fin 2 ∧ PyFloat.inf ∈ dropnaF [PyFloat.inf] := by
  constructor
  · have h := C4_path_efficiency_amended.1 400 (by norm_num)
    rw [h]
    norm_num
  · exact C4_path_efficiency_amended.2.2 [PyFloat.inf] (by simp)

/-- C2 counterexample: an input with exactly 2 complete participants does not
produce the insufficient-data response — `get_hypothesis_stats` only
short-circuits when zero complete rows remain, so with 2 complete participants
it still takes the success branch and reports an F statistic. -/
theorem C2_insufficient_threshold_counterexample :
    nParticipants ex2 = 2 ∧ get_hypothesis_stats fOneEx ex2 ≠ HypResult.insufficient := by
  decide

/-- C2 amended: the endpoint returns the explicit insufficient-data result
exactly when zero participants survive the complete-case reshaping; whenever at
least one complete participant remains (including only 1 or 2), it runs
`f_oneway` and returns the success payload with that participant count. -/
theorem C2_insufficient_amended :
    (∀ (f : List (List ℚ) → ℚ × ℚ) (trials : List Trial),
        get_hypothesis_stats f trials = HypResult.insufficient ↔ nParticipants trials = 0)
    ∧ (∀ (f : List (List ℚ) → ℚ × ℚ) (trials : List Trial), 0 < nParticipants trials →
        get_hypothesis_stats f trials =
          HypResult.success (nParticipants trials) (f (anovaVectors trials))) := by
  constructor
  · intro f trials
    rw [get_hypothesis_stats]
    by_cases h : nParticipants trials > 0
    · rw [if_pos h]
      constructor
      · intro hc
        exact absurd hc (by simp)
      · omega
    · rw [if_neg h]
      simp
      omega
  · intro f trials h
    rw [get_hypothesis_stats, if_pos h]

/-- C2 amended witness: at the 2-complete-participant input the success branch
is taken with `n_participants = 2`. -/
theorem C2_insufficient_amended_witness :
    get_hypothesis_stats fOneEx ex2 =
      HypResult.success (nParticipants ex2) (fOneEx (anovaVectors ex2)) :=
  C2_insufficient_amended.2 fOneEx ex2 (by decide)

/-- C10 witness: the invariant holds at a concrete table with a keepable row, a
null reaction time and an outlier. -/
theorem C10_cleaned_table_invariant_witness :
    (⟨1, TType.preSupra, some 100⟩ : Trial) ∈ (mkAnalyzer exClean 50000).trialsDf ∧
      ∃ rt, (some (100 : ℚ) = some rt ∧ rt < 50000) := by
  have hmem : (⟨1, TType.preSupra, some 100⟩ : Trial) ∈ (mkAnalyzer exClean 50000).trialsDf :=
    C10_cleaned_table_invariant.2.2.1 exClean 50000 ⟨1, TType.preSupra, some 100⟩
      (by simp [exClean]) ⟨100, rfl, by norm_num⟩
  exact ⟨hmem, C10_cleaned_table_invariant.1 exClean 50000 _ hmem⟩

end Capstone
